import Mathlib

/-!
Verification development for the municipal-announcements notifier
(`heimat_rathaus.py`).  The Python source is shallowly embedded below:
pure helpers become Lean functions, the orchestrating `main` becomes a
pure function from the loaded state, the fetched run result and the
configuration to a `RunOutput` record collecting the dispatched
messages and the persisted state.  Network and clock effects are
inputs: the per-page anchor lists stand for the parsed HTML pages and
a `TgResponse` stands for the notification transport's reply.
-/

/-- One announcement item, as built by `fetch_list_page`:
`{"title": title, "url": full_url}`. -/
structure Item where
  title : String
  url : String
deriving DecidableEq, Repr

/-- The site base URL, constant `BASE` in the source. -/
def BASE : String := "https://www.heimat-info.de"

/-- Python whitespace characters recognised by `str.split()` (ASCII range),
used by `normalize_ws`. -/
def isPyWs (c : Char) : Bool :=
  c == ' ' || c == '\t' || c == '\n' || c == '\r' || c == '\x0b' || c == '\x0c'

/-- Helper for `normalize_ws`: `str.split()` on a character list, the
accumulator holds the current word reversed. -/
def splitWsAux : List Char → List Char → List (List Char)
  | [], [] => []
  | [], w => [w.reverse]
  | c :: rest, w =>
    if isPyWs c then
      if w = [] then splitWsAux rest [] else w.reverse :: splitWsAux rest []
    else splitWsAux rest (c :: w)

/-- `normalize_ws(s)`: `" ".join((s or "").split()).strip()` — collapse
whitespace runs to single spaces and trim both ends. -/
def normalize_ws (s : String) : String :=
  String.mk (List.intercalate [' '] (splitWsAux s.data []))

/-- `str.lower()` restricted to the ASCII titles the scraper handles. -/
def strLower (s : String) : String :=
  String.mk (s.data.map Char.toLower)

/-- Checks that `l` starts with the character sequence `p`; used to embed
the CSS attribute selector `a[href^="/beitraege/"]` and the leading-slash
test of `urljoin`. -/
def hasPre : List Char → List Char → Bool
  | [], _ => true
  | _ :: _, [] => false
  | p :: ps, c :: cs => (c == p) && hasPre ps cs

/-- `urllib.parse.urljoin(BASE, href)` restricted to the hrefs the scraper
feeds it: every selected href is site-absolute (starts with `/`), for which
`urljoin` prepends the base origin. -/
def urljoin (base href : String) : String :=
  if hasPre "/".data href.data then base ++ href else href

/-- One anchor element as the HTML parser returns it: raw `href` attribute
and the anchor text already joined with single spaces by
`get_text(" ", strip=True)`. -/
structure Anchor where
  href : String
  text : String
deriving DecidableEq, Repr

/-- The loop body of `fetch_list_page`: walk the selected anchors keeping a
`used` set of already-emitted absolute URLs (first occurrence wins). -/
def extractLoop : List Anchor → List String → List Item
  | [], _ => []
  | a :: rest, used =>
    if !(hasPre "/beitraege/".data a.href.data) then extractLoop rest used
    else
      let href := normalize_ws a.href
      if href = "" then extractLoop rest used
      else
        let title := normalize_ws a.text
        if title = "" then extractLoop rest used
        else if strLower title = "mehr anzeigen" then extractLoop rest used
        else
          let full_url := urljoin BASE href
          if full_url ∈ used then extractLoop rest used
          else ⟨title, full_url⟩ :: extractLoop rest (full_url :: used)

/-- `fetch_list_page(session, page)` minus the HTTP fetch: extract the
deduplicated item list from one page's anchors. -/
def fetch_list_page (anchors : List Anchor) : List Item :=
  extractLoop anchors []

/-- The page loop of `main` (lines 148-154): extract page after page,
stopping at the first page that yields no items, concatenating the rest. -/
def collectPages : List (List Anchor) → List Item
  | [] => []
  | p :: rest =>
    let items := fetch_list_page p
    if items = [] then [] else items ++ collectPages rest

/-- Pages `1..MAX_PAGES` of the site are visited, so only the first
`maxPages` page contents can contribute to the run result. -/
def fetchAll (maxPages : Nat) (pages : List (List Anchor)) : List Item :=
  collectPages (pages.take maxPages)

/-- The double-quote character (escaped by `html.escape` when `quote=True`). -/
def quoteChar : Char := Char.ofNat 34

/-- The apostrophe character (escaped by `html.escape` when `quote=True`). -/
def aposChar : Char := Char.ofNat 39

/-- Per-character table of Python `html.escape(s, quote)`: `&`, `<`, `>`
always become entities; the two quote characters do so only when
`quote=True`; every other character is kept. -/
def escapeChar (q : Bool) (c : Char) : List Char :=
  if c = '&' then ['&', 'a', 'm', 'p', ';']
  else if c = '<' then ['&', 'l', 't', ';']
  else if c = '>' then ['&', 'g', 't', ';']
  else if q ∧ c = quoteChar then ['&', 'q', 'u', 'o', 't', ';']
  else if q ∧ c = aposChar then ['&', '#', 'x', '2', '7', ';']
  else [c]

/-- `html.escape` over a character list. -/
def escList (q : Bool) : List Char → List Char
  | [] => []
  | c :: l => escapeChar q c ++ escList q l

/-- `html.escape(s, quote)`. -/
def htmlEscape (q : Bool) (s : String) : String :=
  String.mk (escList q s.data)

/-- `format_block(title, url)`: the two-line Telegram HTML block. -/
def format_block (title url : String) : String :=
  "<b>" ++ htmlEscape false title ++ "</b>\n<a href=\"" ++ htmlEscape true url ++ "\">Infos</a>"

/-- The JSON body of a Telegram reply as far as `tg_send` inspects it:
`data.get("ok", False)`, i.e. the `ok` flag defaulted to false. -/
structure TgData where
  ok : Bool
deriving DecidableEq, Repr

/-- A Telegram transport reply: HTTP status code and the parsed JSON body
(`none` when `resp.json()` raises). -/
structure TgResponse where
  status : Nat
  body : Option TgData
deriving DecidableEq, Repr

/-- The failure modes `tg_send` raises as `RuntimeError`s. -/
inductive TgError where
  | missingCreds
  | notJson
  | httpError (code : Nat)
  | notOk
deriving DecidableEq, Repr

/-- `tg_send(session, text)` minus the HTTP POST: decide, from the
credentials and the transport reply, whether the call returns or which
error it raises.  The source checks, in order: missing `TG_TOKEN` or
`TG_CHAT_ID`; a body that is not JSON; `status_code >= 400`; a falsy
`ok` flag. -/
def tg_send (token chatId : String) (resp : TgResponse) : Except TgError Unit :=
  if token = "" ∨ chatId = "" then .error .missingCreds
  else
    match resp.body with
    | none => .error .notJson
    | some data =>
      if 400 ≤ resp.status then .error (.httpError resp.status)
      else if data.ok = false then .error .notOk
      else .ok ()

/-- A 2xx HTTP status, as the spec's word "non-2xx" reads. -/
def spec_is2xx (n : Nat) : Bool :=
  decide (200 ≤ n ∧ n < 300)

/-- Python `seen_list[-MAX_SEEN:]`: for `n ≥ 1` the last `n` entries; for
`n = 0` the slice `[-0:]` is `[0:]`, the whole list. -/
def truncLast (n : Nat) (l : List String) : List String :=
  if n = 0 then l else l.drop (l.length - n)

/-- The merge loops of `main` (lines 178-181, 189-192, 215-218):
`for it in items: if it["url"] not in seen_set: add and append`. -/
def mergeNew (seen : List String) (items : List Item) : List String :=
  items.foldl (fun acc it => if it.url ∈ acc then acc else acc ++ [it.url]) seen

/-- The `EXISTING_POST` send loop (lines 171-174): `tg_send` each formatted
block, accumulating the texts handed to the transport. -/
def sendLoop : List Item → List String → List String
  | [], out => out
  | it :: rest, out => sendLoop rest (out ++ [format_block it.title it.url])

/-- The incremental posting loop (lines 204-211): send each block and
append the url to both the seen set and the seen list (unconditionally). -/
def postLoop : List Item → List String → List String → List String × List String
  | [], out, seenL => (out, seenL)
  | it :: rest, out, seenL =>
    postLoop rest (out ++ [format_block it.title it.url]) (seenL ++ [it.url])

/-- Everything observable a run produces: the items iterated by the send
loop, the texts handed to `tg_send` in order, the in-memory `seen_list`
right before truncation, and the persisted `state["seen"]`. -/
structure RunOutput where
  posted : List Item
  sent : List String
  fullSeen : List String
  savedSeen : List String
deriving DecidableEq, Repr

/-- `main()` from the point where the run result `all_items` is in hand
(line 156 onward), parameterised by the configuration (`MAX_SEEN`,
`MAX_POSTS_PER_RUN`, `EXISTING_POST`) and the loaded `seen` list.  The
four return paths of the source appear in order: empty result,
`EXISTING_POST` test mode, bootstrap (empty loaded seen list), and the
ordinary incremental path. -/
def runMain (maxSeen cap : Nat) (seen0 : List String) (allItems : List Item)
    (existingPost : Bool) : RunOutput :=
  if allItems = [] then
    { posted := [], sent := [], fullSeen := seen0, savedSeen := truncLast maxSeen seen0 }
  else if existingPost then
    let toPost := allItems.reverse
    { posted := toPost, sent := sendLoop toPost [],
      fullSeen := mergeNew seen0 allItems,
      savedSeen := truncLast maxSeen (mergeNew seen0 allItems) }
  else if seen0 = [] then
    { posted := [], sent := [],
      fullSeen := mergeNew seen0 allItems,
      savedSeen := truncLast maxSeen (mergeNew seen0 allItems) }
  else
    let newItems := allItems.filter fun it => decide (it.url ∉ seen0)
    let toPost := newItems.reverse.take cap
    let stepped := postLoop toPost [] seen0
    { posted := toPost, sent := stepped.1,
      fullSeen := mergeNew stepped.2 allItems,
      savedSeen := truncLast maxSeen (mergeNew stepped.2 allItems) }

/-- Modelled from the spec: the `chunk(blocks, max_length)` operation of
§4.4, which has no counterpart anywhere in the source.  Greedily pack
blocks into batches separated by a blank line, flushing the current batch
when adding the next block would exceed `maxLen`; an oversize lone block
is emitted as its own batch. -/
def chunkLoop (maxLen : Nat) : List String → String → List String → List String
  | [], cur, acc => if cur = "" then acc else acc ++ [cur]
  | b :: rest, cur, acc =>
    if cur = "" then chunkLoop maxLen rest b acc
    else if (cur ++ "\n\n" ++ b).length ≤ maxLen then
      chunkLoop maxLen rest (cur ++ "\n\n" ++ b) acc
    else chunkLoop maxLen rest b (acc ++ [cur])

/-- Modelled from the spec: entry point of the §4.4 chunking. -/
def chunkSpec (blocks : List String) (maxLen : Nat) : List String :=
  chunkLoop maxLen blocks "" []

/-- The entity tails that may legitimately follow a `&` in escaped output. -/
def entityTails : List (List Char) :=
  [['a', 'm', 'p', ';'], ['l', 't', ';'], ['g', 't', ';'],
   ['q', 'u', 'o', 't', ';'], ['#', 'x', '2', '7', ';']]

/-- Does the list begin with one of the recognised entity tails? -/
def beginsEntity (l : List Char) : Bool :=
  entityTails.any fun t => l.take t.length == t

/-- Every ampersand in the list opens one of the five HTML entities, so no
ampersand is left that the HTML parser would read as a bare `&`. -/
def ampsEscaped : List Char → Bool
  | [] => true
  | c :: rest => (!(c == '&') || beginsEntity rest) && ampsEscaped rest

/-- Concrete items used by the concrete-input theorems below. -/
def itA : Item := ⟨"A", "a"⟩

def itB : Item := ⟨"B", "b"⟩

def itC : Item := ⟨"C", "c"⟩

/-! ## Helper lemmas -/

lemma escList_cons (q : Bool) (c : Char) (l : List Char) :
    escList q (c :: l) = escapeChar q c ++ escList q l := rfl

lemma not_mem_escapeChar_lt (q : Bool) (c : Char) : '<' ∉ escapeChar q c := by
  unfold escapeChar
  split_ifs with h1 h2 h3 h4 h5
  · decide
  · decide
  · decide
  · decide
  · decide
  · simp only [List.mem_singleton]
    intro h
    exact h2 h.symm

lemma not_mem_escapeChar_gt (q : Bool) (c : Char) : '>' ∉ escapeChar q c := by
  unfold escapeChar
  split_ifs with h1 h2 h3 h4 h5
  · decide
  · decide
  · decide
  · decide
  · decide
  · simp only [List.mem_singleton]
    intro h
    exact h3 h.symm

lemma not_mem_escapeChar_quote (c : Char) : quoteChar ∉ escapeChar true c := by
  unfold escapeChar
  split_ifs with h1 h2 h3 h4 h5
  · decide
  · decide
  · decide
  · decide
  · decide
  · simp only [List.mem_singleton]
    intro h
    exact h4 ⟨rfl, h.symm⟩

lemma not_mem_escList_lt (q : Bool) (l : List Char) : '<' ∉ escList q l := by
  induction l with
  | nil => simp [escList]
  | cons c l ih =>
    rw [escList_cons]
    intro h
    rcases List.mem_append.mp h with h | h
    · exact not_mem_escapeChar_lt q c h
    · exact ih h

lemma not_mem_escList_gt (q : Bool) (l : List Char) : '>' ∉ escList q l := by
  induction l with
  | nil => simp [escList]
  | cons c l ih =>
    rw [escList_cons]
    intro h
    rcases List.mem_append.mp h with h | h
    · exact not_mem_escapeChar_gt q c h
    · exact ih h

lemma not_mem_escList_quote (l : List Char) : quoteChar ∉ escList true l := by
  induction l with
  | nil => simp [escList]
  | cons c l ih =>
    rw [escList_cons]
    intro h
    rcases List.mem_append.mp h with h | h
    · exact not_mem_escapeChar_quote c h
    · exact ih h

lemma ampsEscaped_amp (rest : List Char) :
    ampsEscaped (['&', 'a', 'm', 'p', ';'] ++ rest) = ampsEscaped rest := rfl

lemma ampsEscaped_lt (rest : List Char) :
    ampsEscaped (['&', 'l', 't', ';'] ++ rest) = ampsEscaped rest := rfl

lemma ampsEscaped_gt (rest : List Char) :
    ampsEscaped (['&', 'g', 't', ';'] ++ rest) = ampsEscaped rest := rfl

lemma ampsEscaped_quot (rest : List Char) :
    ampsEscaped (['&', 'q', 'u', 'o', 't', ';'] ++ rest) = ampsEscaped rest := rfl

lemma ampsEscaped_apos (rest : List Char) :
    ampsEscaped (['&', '#', 'x', '2', '7', ';'] ++ rest) = ampsEscaped rest := rfl

lemma ampsEscaped_plain (c : Char) (rest : List Char) (h : (c == '&') = false) :
    ampsEscaped (c :: rest) = ampsEscaped rest := by
  simp [ampsEscaped, h]

lemma ampsEscaped_escList (q : Bool) (l : List Char) :
    ampsEscaped (escList q l) = true := by
  induction l with
  | nil => rfl
  | cons c l ih =>
    rw [escList_cons]
    unfold escapeChar
    split_ifs with h1 h2 h3 h4 h5
    · rw [ampsEscaped_amp]; exact ih
    · rw [ampsEscaped_lt]; exact ih
    · rw [ampsEscaped_gt]; exact ih
    · rw [ampsEscaped_quot]; exact ih
    · rw [ampsEscaped_apos]; exact ih
    · rw [List.singleton_append, ampsEscaped_plain c _ (beq_eq_false_iff_ne.mpr h1)]
      exact ih

lemma mergeNew_nil (seen : List String) : mergeNew seen [] = seen := rfl

lemma mergeNew_cons (seen : List String) (it : Item) (rest : List Item) :
    mergeNew seen (it :: rest) =
      mergeNew (if it.url ∈ seen then seen else seen ++ [it.url]) rest := rfl

lemma mem_mergeNew_left (items : List Item) :
    ∀ (seen : List String) (s : String), s ∈ seen → s ∈ mergeNew seen items := by
  induction items with
  | nil =>
    intro seen s h
    simpa [mergeNew_nil] using h
  | cons it rest ih =>
    intro seen s h
    rw [mergeNew_cons]
    apply ih
    split_ifs with h0
    · exact h
    · exact List.mem_append.mpr (Or.inl h)

lemma mem_mergeNew_right (items : List Item) :
    ∀ (seen : List String) (it : Item), it ∈ items → it.url ∈ mergeNew seen items := by
  induction items with
  | nil =>
    intro seen it h
    exact absurd h (List.not_mem_nil it)
  | cons it0 rest ih =>
    intro seen it h
    rw [mergeNew_cons]
    rcases List.mem_cons.mp h with h | h
    · subst h
      apply mem_mergeNew_left
      split_ifs with h0
      · exact h0
      · exact List.mem_append.mpr (Or.inr (List.mem_singleton.mpr rfl))
    · exact ih _ it h

lemma sendLoop_eq (items : List Item) :
    ∀ out : List String,
      sendLoop items out = out ++ items.map fun it => format_block it.title it.url := by
  induction items with
  | nil =>
    intro out
    simp [sendLoop]
  | cons it rest ih =>
    intro out
    rw [show sendLoop (it :: rest) out =
        sendLoop rest (out ++ [format_block it.title it.url]) from rfl, ih]
    simp

lemma postLoop_eq (items : List Item) :
    ∀ out seenL : List String,
      postLoop items out seenL =
        (out ++ items.map fun it => format_block it.title it.url,
         seenL ++ items.map fun it => it.url) := by
  induction items with
  | nil =>
    intro out seenL
    simp [postLoop]
  | cons it rest ih =>
    intro out seenL
    rw [show postLoop (it :: rest) out seenL =
        postLoop rest (out ++ [format_block it.title it.url]) (seenL ++ [it.url]) from rfl, ih]
    simp

lemma truncLast_length_le (n : Nat) (l : List String) (h : 1 ≤ n) :
    (truncLast n l).length ≤ n := by
  unfold truncLast
  rw [if_neg (by omega), List.length_drop]
  omega

lemma truncLast_suffix (n : Nat) (l : List String) :
    ∃ pre, pre ++ truncLast n l = l := by
  unfold truncLast
  split_ifs with h
  · exact ⟨[], rfl⟩
  · exact ⟨l.take (l.length - n), List.take_append_drop _ l⟩

lemma truncLast_of_le (n : Nat) (l : List String) (h : l.length ≤ n) :
    truncLast n l = l := by
  unfold truncLast
  split_ifs with h0
  · rfl
  · have hz : l.length - n = 0 := by omega
    rw [hz, List.drop_zero]

lemma runMain_nil (ms cap : Nat) (seen0 : List String) (ep : Bool) :
    runMain ms cap seen0 [] ep = ⟨[], [], seen0, truncLast ms seen0⟩ := by
  simp [runMain]

lemma runMain_existing (ms cap : Nat) (seen0 : List String) (allItems : List Item)
    (h : allItems ≠ []) :
    runMain ms cap seen0 allItems true =
      ⟨allItems.reverse, sendLoop allItems.reverse [],
       mergeNew seen0 allItems, truncLast ms (mergeNew seen0 allItems)⟩ := by
  simp [runMain, h]

lemma runMain_boot (ms cap : Nat) (allItems : List Item) (h : allItems ≠ []) :
    runMain ms cap [] allItems false =
      ⟨[], [], mergeNew [] allItems, truncLast ms (mergeNew [] allItems)⟩ := by
  simp [runMain, h]

lemma runMain_incr (ms cap : Nat) (seen0 : List String) (allItems : List Item)
    (h1 : allItems ≠ []) (h2 : seen0 ≠ []) :
    runMain ms cap seen0 allItems false =
      ⟨(allItems.filter fun it => decide (it.url ∉ seen0)).reverse.take cap,
       (postLoop ((allItems.filter fun it => decide (it.url ∉ seen0)).reverse.take cap)
         [] seen0).1,
       mergeNew
         (postLoop ((allItems.filter fun it => decide (it.url ∉ seen0)).reverse.take cap)
           [] seen0).2 allItems,
       truncLast ms
         (mergeNew
           (postLoop ((allItems.filter fun it => decide (it.url ∉ seen0)).reverse.take cap)
             [] seen0).2 allItems)⟩ := by
  simp [runMain, h1, h2]

lemma runMain_savedSeen (ms cap : Nat) (seen0 : List String) (allItems : List Item)
    (ep : Bool) :
    (runMain ms cap seen0 allItems ep).savedSeen =
      truncLast ms (runMain ms cap seen0 allItems ep).fullSeen := by
  unfold runMain
  split_ifs <;> rfl

lemma not_posted_of_mem_seen (ms cap : Nat) (seen1 : List String) (items2 : List Item)
    (i : Item) (h : i.url ∈ seen1) :
    i ∉ (runMain ms cap seen1 items2 false).posted := by
  by_cases hA : items2 = []
  · subst hA
    rw [runMain_nil]
    exact List.not_mem_nil i
  · by_cases hS : seen1 = []
    · subst hS
      exact absurd h (List.not_mem_nil _)
    · rw [runMain_incr ms cap seen1 items2 hA hS]
      intro hmem
      have hrev : i ∈ (items2.filter fun it => decide (it.url ∉ seen1)).reverse :=
        List.mem_of_mem_take hmem
      rw [List.mem_reverse] at hrev
      have hfil := List.of_mem_filter hrev
      rw [decide_eq_true_eq] at hfil
      exact hfil h

lemma no_new_no_post (ms cap : Nat) (seen1 : List String) (items : List Item)
    (h : ∀ it : Item, it ∈ items → it.url ∈ seen1) :
    (runMain ms cap seen1 items false).posted = [] ∧
      (runMain ms cap seen1 items false).sent = [] := by
  by_cases hA : items = []
  · subst hA
    rw [runMain_nil]
    exact ⟨rfl, rfl⟩
  · by_cases hS : seen1 = []
    · subst hS
      rw [runMain_boot ms cap items hA]
      exact ⟨rfl, rfl⟩
    · rw [runMain_incr ms cap seen1 items hA hS]
      have hf : items.filter (fun it => decide (it.url ∉ seen1)) = [] := by
        rw [List.filter_eq_nil_iff]
        intro a ha
        simp only [decide_eq_true_eq]
        intro hcon
        exact hcon (h a ha)
      rw [hf]
      simp only [List.reverse_nil, List.take_nil]
      exact ⟨trivial, rfl⟩

/-! ## Claim theorems -/

/-- C1 (amended): per run, an item's URL is dispatched at most as often as
it occurs in the run result — so at most once whenever the run result lists
it only once (cross-page duplicates are NOT collapsed and are dispatched
once per occurrence, see the counterexample) — and an item whose URL is in
the loaded seen list is never dispatched by an incremental run, so a
dispatched item stays undispatched in later runs for as long as its URL
survives in the persisted seen list. -/
theorem c1_relay_once (ms cap : Nat) (seen0 : List String) (allItems : List Item)
    (ep : Bool) (u : String) :
    (runMain ms cap seen0 allItems ep).posted.countP
        (fun it => decide (it.url = u)) ≤
      allItems.countP (fun it => decide (it.url = u)) ∧
      ∀ i : Item, i.url ∈ seen0 → i ∉ (runMain ms cap seen0 allItems false).posted := by
  constructor
  · by_cases hA : allItems = []
    · subst hA
      rw [runMain_nil]
    · cases ep with
      | false =>
        by_cases hS : seen0 = []
        · subst hS
          rw [runMain_boot ms cap allItems hA]
          simp
        · rw [runMain_incr ms cap seen0 allItems hA hS]
          dsimp only
          have t1 :
              ((allItems.filter fun it => decide (it.url ∉ seen0)).reverse.take cap).countP
                  (fun it => decide (it.url = u)) ≤
                ((allItems.filter fun it => decide (it.url ∉ seen0)).reverse).countP
                  (fun it => decide (it.url = u)) :=
            (List.take_sublist _ _).countP_le _
          have t2 :
              ((allItems.filter fun it => decide (it.url ∉ seen0)).reverse).countP
                  (fun it => decide (it.url = u)) =
                ((allItems.filter fun it => decide (it.url ∉ seen0))).countP
                  (fun it => decide (it.url = u)) :=
            (List.reverse_perm _).countP_eq _
          have t3 :
              ((allItems.filter fun it => decide (it.url ∉ seen0))).countP
                  (fun it => decide (it.url = u)) ≤
                allItems.countP (fun it => decide (it.url = u)) :=
            (List.filter_sublist _).countP_le _
          omega
      | true =>
        rw [runMain_existing ms cap seen0 allItems hA]
        exact le_of_eq ((List.reverse_perm allItems).countP_eq _)
  · intro i h
    exact not_posted_of_mem_seen ms cap seen0 allItems i h

/-- C1 counterexample: the same article URL listed on both fetched pages
(the per-page `used` set does not deduplicate across pages) is relayed
twice within one incremental run, violating "at most once within any
single run". -/
theorem c1_counterexample :
    (runMain 500 50 ["seed"]
        (fetchAll 2 [[⟨"/beitraege/x", "T"⟩], [⟨"/beitraege/x", "T"⟩]]) false).posted.countP
      (fun it => decide (it.url = "https://www.heimat-info.de/beitraege/x")) = 2 := by
  decide

/-- C1 witness: concrete instantiation of `c1_relay_once`. -/
theorem c1_witness :
    (runMain 500 50 ["a"] [itA] false).posted.countP
        (fun it => decide (it.url = "a")) ≤
      ([itA] : List Item).countP (fun it => decide (it.url = "a")) ∧
      itA ∉ (runMain 500 50 ["a"] [itA] false).posted :=
  ⟨(c1_relay_once 500 50 ["a"] [itA] false "a").1,
   (c1_relay_once 500 50 ["a"] [itA] false "a").2 itA (by decide)⟩

/-- C2 (amended): in an incremental run the dispatched sequence is exactly
the reverse of the new-item subsequence of the (newest-first) run result,
truncated to the first `MAX_POSTS_PER_RUN` entries; so when the number N
of new items is at most `MAX_POSTS_PER_RUN`, all N are dispatched in the
order `pN, ..., p1` (oldest first), and otherwise only the
`MAX_POSTS_PER_RUN` oldest are. -/
theorem c2_ordering (ms cap : Nat) (seen0 : List String) (allItems : List Item)
    (h2 : seen0 ≠ []) :
    (runMain ms cap seen0 allItems false).posted =
        ((allItems.filter fun it => decide (it.url ∉ seen0)).reverse.take cap) ∧
      ((allItems.filter fun it => decide (it.url ∉ seen0)).length ≤ cap →
        (runMain ms cap seen0 allItems false).posted =
          (allItems.filter fun it => decide (it.url ∉ seen0)).reverse) := by
  by_cases hA : allItems = []
  · subst hA
    rw [runMain_nil]
    constructor
    · simp
    · intro _
      simp
  · rw [runMain_incr ms cap seen0 allItems hA h2]
    constructor
    · rfl
    · intro hlen
      exact List.take_of_length_le (by rw [List.length_reverse]; exact hlen)

/-- C2 counterexample: with `MAX_POSTS_PER_RUN = 1` a run that finds two
new items dispatches only one of them, so "all N items are dispatched" is
false as stated. -/
theorem c2_counterexample :
    (runMain 500 1 ["x"] [itA, itB] false).posted = [itB] ∧
      (([itA, itB] : List Item).filter
        fun it => decide (it.url ∉ (["x"] : List String))).length = 2 := by
  decide

/-- C2 witness: concrete instantiation of `c2_ordering`. -/
theorem c2_witness :
    (runMain 500 50 ["x"] [itA, itB] false).posted =
        (([itA, itB] : List Item).filter
          fun it => decide (it.url ∉ (["x"] : List String))).reverse.take 50 ∧
      (runMain 500 50 ["x"] [itA, itB] false).posted =
        (([itA, itB] : List Item).filter
          fun it => decide (it.url ∉ (["x"] : List String))).reverse :=
  ⟨(c2_ordering 500 50 ["x"] [itA, itB] (by decide)).1,
   (c2_ordering 500 50 ["x"] [itA, itB] (by decide)).2 (by decide)⟩

/-- C3 (amended): a non-test run that loads an empty persisted seen list
dispatches nothing and persists the last `MAX_SEEN` entries of the
deduplicated URL sequence of the run result; every listed item's URL
reaches the in-memory seen list, but the truncation to `MAX_SEEN` may drop
the earliest of them before persisting (and the `EXISTING_POST` test mode
dispatches even from empty state, see the counterexample). -/
theorem c3_bootstrap (ms cap : Nat) (allItems : List Item) :
    (runMain ms cap [] allItems false).sent = [] ∧
      (runMain ms cap [] allItems false).posted = [] ∧
      (runMain ms cap [] allItems false).savedSeen =
        truncLast ms (mergeNew [] allItems) ∧
      ∀ it : Item, it ∈ allItems → it.url ∈ mergeNew [] allItems := by
  by_cases hA : allItems = []
  · subst hA
    rw [runMain_nil]
    refine ⟨rfl, rfl, rfl, ?_⟩
    intro it h
    exact absurd h (List.not_mem_nil it)
  · rw [runMain_boot ms cap allItems hA]
    exact ⟨rfl, rfl, rfl, fun it h => mem_mergeNew_right allItems [] it h⟩

/-- C3 counterexample: with `EXISTING_POST=1` and `MAX_SEEN=1`, a run from
empty persisted state both dispatches (two messages) and persists a seen
list missing the first listed item's URL — both conjuncts of the claim
fail. -/
theorem c3_counterexample :
    (runMain 1 50 [] [itA, itB] true).sent ≠ [] ∧
      itA.url ∉ (runMain 1 50 [] [itA, itB] true).savedSeen := by
  decide

/-- C3 witness: concrete instantiation of `c3_bootstrap`. -/
theorem c3_witness :
    (runMain 2 50 [] [itA, itB] false).sent = [] ∧
      itA.url ∈ mergeNew [] [itA, itB] :=
  ⟨(c3_bootstrap 2 50 [itA, itB]).1,
   (c3_bootstrap 2 50 [itA, itB]).2.2.2 itA (by decide)⟩

/-- C4 (confirmed): once an item's URL is contained in the seen list loaded
at the start of a run, the ordinary (non-test) incremental path of that run
does not dispatch the item. -/
theorem c4_seen_not_redispatched (ms cap : Nat) (seen0 : List String)
    (allItems : List Item) (i : Item) (h : i.url ∈ seen0) :
    i ∉ (runMain ms cap seen0 allItems false).posted :=
  not_posted_of_mem_seen ms cap seen0 allItems i h

/-- C4 witness: concrete instantiation of `c4_seen_not_redispatched`. -/
theorem c4_witness :
    itA.url ∈ (["a"] : List String) ∧
      itA ∉ (runMain 500 50 ["a"] [itA] false).posted :=
  ⟨by decide, c4_seen_not_redispatched 500 50 ["a"] [itA] itA (by decide)⟩

/-- C5 (amended): a second non-test run over an unchanged run result
dispatches nothing, provided every listed item's URL is still present in
the persisted seen list the first run produced — the retention truncation
to `MAX_SEEN` may evict listed URLs and cause redelivery, see the
counterexample. -/
theorem c5_idempotent (ms1 cap1 ms2 cap2 : Nat) (seen0 : List String) (ep1 : Bool)
    (allItems : List Item)
    (h : ∀ it : Item, it ∈ allItems →
      it.url ∈ (runMain ms1 cap1 seen0 allItems ep1).savedSeen) :
    (runMain ms2 cap2 (runMain ms1 cap1 seen0 allItems ep1).savedSeen
        allItems false).posted = [] ∧
      (runMain ms2 cap2 (runMain ms1 cap1 seen0 allItems ep1).savedSeen
        allItems false).sent = [] :=
  no_new_no_post ms2 cap2 _ allItems h

/-- C5 counterexample: with `MAX_SEEN = 1` the first run's truncation
evicts `itB`'s URL, so a second run against the identical listing
dispatches again — the claim fails as stated. -/
theorem c5_counterexample :
    (runMain 1 50 (runMain 1 50 ["x"] [itA, itB] false).savedSeen
      [itA, itB] false).posted ≠ [] := by
  decide

/-- C5 witness: concrete instantiation of `c5_idempotent`. -/
theorem c5_witness :
    itA.url ∈ (runMain 10 50 ["x"] [itA, itB] false).savedSeen ∧
      (runMain 10 50 (runMain 10 50 ["x"] [itA, itB] false).savedSeen
        [itA, itB] false).posted = [] :=
  ⟨by decide, (c5_idempotent 10 50 10 50 ["x"] false [itA, itB] (by decide)).1⟩

/-- C6 (amended): for `MAX_SEEN ≥ 1`, after every normally terminating run
the persisted seen list has length at most `MAX_SEEN` and is a suffix of
the in-memory seen list, i.e. the oldest-inserted entries are dropped
first.  For `MAX_SEEN = 0` the Python slice `seen_list[-0:]` is the whole
list, so nothing is truncated — see the counterexample. -/
theorem c6_retention (ms cap : Nat) (seen0 : List String) (allItems : List Item)
    (ep : Bool) (h : 1 ≤ ms) :
    (runMain ms cap seen0 allItems ep).savedSeen.length ≤ ms ∧
      ∃ pre, pre ++ (runMain ms cap seen0 allItems ep).savedSeen =
        (runMain ms cap seen0 allItems ep).fullSeen := by
  rw [runMain_savedSeen]
  exact ⟨truncLast_length_le ms _ h, truncLast_suffix ms _⟩

/-- C6 counterexample: with `MAX_SEEN = 0` (a recognised configuration
value) the persisted seen list keeps all entries, exceeding the bound. -/
theorem c6_counterexample :
    ¬ (runMain 0 50 ["x"] [] false).savedSeen.length ≤ 0 := by
  decide

/-- C6 witness: concrete instantiation of `c6_retention`. -/
theorem c6_witness :
    1 ≤ 3 ∧ (runMain 3 50 ["x"] [itA] false).savedSeen.length ≤ 3 :=
  ⟨by decide, (c6_retention 3 50 ["x"] [itA] false (by decide)).1⟩

/-- C7 (amended): no batching is performed anywhere in the source — the
sequence of texts handed to the transport is exactly one message per
dispatched item, each message being that item's formatted block, in
dispatch order. -/
theorem c7_one_message_per_item (ms cap : Nat) (seen0 : List String)
    (allItems : List Item) (ep : Bool) :
    (runMain ms cap seen0 allItems ep).sent =
      (runMain ms cap seen0 allItems ep).posted.map
        fun it => format_block it.title it.url := by
  by_cases hA : allItems = []
  · subst hA
    rw [runMain_nil]
    rfl
  · cases ep with
    | false =>
      by_cases hS : seen0 = []
      · subst hS
        rw [runMain_boot ms cap allItems hA]
        rfl
      · rw [runMain_incr ms cap seen0 allItems hA hS]
        dsimp only
        rw [postLoop_eq ((allItems.filter fun it => decide (it.url ∉ seen0)).reverse.take cap)
          [] seen0]
        simp
    | true =>
      rw [runMain_existing ms cap seen0 allItems hA]
      dsimp only
      rw [sendLoop_eq allItems.reverse []]
      simp

/-- C7 counterexample: two blocks that would fit in a single
4096-character batch are nevertheless sent as two separate messages; the
spec's greedy chunking would produce one message. -/
theorem c7_counterexample :
    (runMain 500 50 ["x"] [itA, itB] false).sent.length = 2 ∧
      (chunkSpec ((runMain 500 50 ["x"] [itA, itB] false).sent) 4096).length = 1 := by
  decide

/-- C8 (confirmed): for a title containing `<`, `>` and `&` and a URL
containing `"`, the rendered block is the bold escaped title followed by
the escaped-href link, the escaped title contains no raw `<` or `>`, the
escaped URL contains no raw `"`, `<` or `>`, and every `&` in either
escaped text opens an HTML entity — so none of those characters survives
unescaped in a markup-significant position. -/
theorem c8_escaping (title url : String)
    (h1 : '<' ∈ title.data) (h2 : '>' ∈ title.data) (h3 : '&' ∈ title.data)
    (h4 : quoteChar ∈ url.data) :
    format_block title url =
        "<b>" ++ htmlEscape false title ++ "</b>\n<a href=\"" ++
          htmlEscape true url ++ "\">Infos</a>" ∧
      '<' ∉ (htmlEscape false title).data ∧
      '>' ∉ (htmlEscape false title).data ∧
      ampsEscaped (htmlEscape false title).data = true ∧
      quoteChar ∉ (htmlEscape true url).data ∧
      '<' ∉ (htmlEscape true url).data ∧
      '>' ∉ (htmlEscape true url).data ∧
      ampsEscaped (htmlEscape true url).data = true :=
  ⟨rfl,
   not_mem_escList_lt false title.data,
   not_mem_escList_gt false title.data,
   ampsEscaped_escList false title.data,
   not_mem_escList_quote url.data,
   not_mem_escList_lt true url.data,
   not_mem_escList_gt true url.data,
   ampsEscaped_escList true url.data⟩

/-- C8 witness: concrete instantiation of `c8_escaping` on a title holding
all three markup characters and a URL holding a double quote. -/
theorem c8_witness :
    ('<' ∈ "a<>&b".data ∧ '>' ∈ "a<>&b".data ∧ '&' ∈ "a<>&b".data ∧
        quoteChar ∈ "u\"v".data) ∧
      '<' ∉ (htmlEscape false "a<>&b").data ∧
      quoteChar ∉ (htmlEscape true "u\"v").data :=
  ⟨by decide,
   (c8_escaping "a<>&b" "u\"v" (by decide) (by decide) (by decide) (by decide)).2.1,
   (c8_escaping "a<>&b" "u\"v" (by decide) (by decide) (by decide)
     (by decide)).2.2.2.2.1⟩

/-- C9 (amended): the dispatch returns successfully exactly when both
credentials are nonempty, the response body parses as JSON, the HTTP
status is below 400, and the acknowledgement flag is true.  (The source
tests `status_code >= 400`, not "non-2xx": a 3xx status with an ok JSON
body returns successfully, see the counterexample.) -/
theorem c9_dispatch_success_iff (token chatId : String) (resp : TgResponse) :
    tg_send token chatId resp = Except.ok () ↔
      (token ≠ "" ∧ chatId ≠ "" ∧
        ∃ d : TgData, resp.body = some d ∧ resp.status < 400 ∧ d.ok = true) := by
  unfold tg_send
  by_cases h1 : token = "" ∨ chatId = ""
  · rw [if_pos h1]
    constructor
    · intro h
      exact Except.noConfusion h
    · rintro ⟨ht, hc, -⟩
      rcases h1 with h1 | h1
      · exact absurd h1 ht
      · exact absurd h1 hc
  · rw [if_neg h1]
    push_neg at h1
    obtain ⟨ht, hc⟩ := h1
    cases hb : resp.body with
    | none =>
      constructor
      · intro h
        exact Except.noConfusion h
      · rintro ⟨-, -, d, hd, -⟩
        exact Option.noConfusion hd
    | some d =>
      dsimp only
      by_cases h4 : 400 ≤ resp.status
      · rw [if_pos h4]
        constructor
        · intro h
          exact Except.noConfusion h
        · rintro ⟨-, -, d', hd, hlt, -⟩
          omega
      · rw [if_neg h4]
        by_cases h5 : d.ok = false
        · rw [if_pos h5]
          constructor
          · intro h
            exact Except.noConfusion h
          · rintro ⟨-, -, d', hd, -, hok⟩
            injection hd with hd'
            subst hd'
            rw [h5] at hok
            exact Bool.noConfusion hok
        · rw [if_neg h5]
          simp only [Bool.not_eq_false] at h5
          constructor
          · intro _
            exact ⟨ht, hc, d, rfl, by omega, h5⟩
          · intro _
            rfl

/-- C9 counterexample: a 302 response with a JSON `ok=true` body is
non-2xx, yet `tg_send` returns successfully — the claim's "non-2xx raises"
is false as stated. -/
theorem c9_counterexample :
    tg_send "t" "c" ⟨302, some ⟨true⟩⟩ = Except.ok () ∧ spec_is2xx 302 = false :=
  ⟨rfl, rfl⟩

/-- C10 (amended): an incremental run dispatches exactly the
`MAX_POSTS_PER_RUN` oldest new items (the reverse of the new-item
subsequence truncated to the cap); every listed item's URL — dispatched or
not — is merged into the in-memory seen list before truncation and
saving; and any item whose URL survives into the persisted seen list is
not dispatched by a later incremental run loading that list.  (After
truncation an undispatched excess item's URL may be evicted and the item
redispatched later, see the counterexample.) -/
theorem c10_cap_and_merge (ms cap : Nat) (seen0 : List String)
    (allItems : List Item) (h2 : seen0 ≠ []) :
    (runMain ms cap seen0 allItems false).posted =
        ((allItems.filter fun it => decide (it.url ∉ seen0)).reverse.take cap) ∧
      (∀ it : Item, it ∈ allItems →
        it.url ∈ (runMain ms cap seen0 allItems false).fullSeen) ∧
      ∀ (ms2 cap2 : Nat) (items2 : List Item) (i : Item),
        i.url ∈ (runMain ms cap seen0 allItems false).savedSeen →
        i ∉ (runMain ms2 cap2 ((runMain ms cap seen0 allItems false).savedSeen)
          items2 false).posted := by
  refine ⟨?_, ?_, ?_⟩
  · by_cases hA : allItems = []
    · subst hA
      rw [runMain_nil]
      simp
    · rw [runMain_incr ms cap seen0 allItems hA h2]
  · intro it h
    by_cases hA : allItems = []
    · subst hA
      exact absurd h (List.not_mem_nil it)
    · rw [runMain_incr ms cap seen0 allItems hA h2]
      exact mem_mergeNew_right allItems _ it h
  · intro ms2 cap2 items2 i h
    exact not_posted_of_mem_seen ms2 cap2 _ items2 i h

/-- C10 counterexample: `MAX_SEEN = 1`, `MAX_POSTS_PER_RUN = 1`, listing
`[A, B, C]`: the run dispatches only `C`, merges all three URLs, but the
truncation keeps only `"b"`; a later run whose listing still contains `A`
dispatches the formerly-excess item `A` after all. -/
theorem c10_counterexample :
    itA ∉ (runMain 1 1 ["x"] [itA, itB, itC] false).posted ∧
      itA.url ∉ (["x"] : List String) ∧
      itA ∈ (runMain 1 1 ((runMain 1 1 ["x"] [itA, itB, itC] false).savedSeen)
        [itA] false).posted := by
  decide

/-- C10 witness: concrete instantiation of `c10_cap_and_merge`. -/
theorem c10_witness :
    (runMain 500 1 ["x"] [itA, itB, itC] false).posted =
        (([itA, itB, itC] : List Item).filter
          fun it => decide (it.url ∉ (["x"] : List String))).reverse.take 1 ∧
      itA.url ∈ (runMain 500 1 ["x"] [itA, itB, itC] false).fullSeen :=
  ⟨(c10_cap_and_merge 500 1 ["x"] [itA, itB, itC] (by decide)).1,
   (c10_cap_and_merge 500 1 ["x"] [itA, itB, itC] (by decide)).2.1 itA (by decide)⟩
